import Mathlib

/-!
Verification of the command-execution gatekeeper and tool-call dispatch loop
of the bash-agent repository (src/main.py, src/config.py, src/helpers.py).

The Python source is shallowly embedded: pure functions become Lean functions,
the mutable agent state (conversation transcript, working directory) becomes
explicit state passing, external collaborators (the LLM client, the JSON
parser, the actual shell execution inside bash.py) become oracle parameters,
and Python exceptions become `Except` values.
-/

namespace Agent

/-! ## Python string primitives

The Python string operations used by the source (`str.strip`, `str.lower`,
slicing `s[:n]`) modelled on the character list underlying a Lean `String`. -/

/-- Embedding of Python `str.strip()`: drop whitespace from both ends. -/
def pyStripL (l : List Char) : List Char :=
  ((l.dropWhile Char.isWhitespace).reverse.dropWhile Char.isWhitespace).reverse

/-- Embedding of Python `str.strip()` on `String`. -/
def pyStrip (s : String) : String := (pyStripL s.toList).asString

/-- Embedding of Python `str.lower()` (ASCII case folding). -/
def pyLower (s : String) : String := (s.toList.map Char.toLower).asString

/-- Embedding of Python slicing `s[:n]` (first `n` characters). -/
def pySlice (n : Nat) (s : String) : String := (s.toList.take n).asString

/-! ## `fix_json_escaping` (src/main.py lines 51-63)

The Python function substitutes the regex `(?<![\\])\\(?=;)` by `\\\\`:
every backslash that is not immediately preceded by a backslash and is
immediately followed by a semicolon is doubled.  `re.sub` scans the input
left to right; each match is the single backslash character and the
lookbehind inspects the original preceding character, so the substitution
is faithfully modelled by a single left-to-right pass that remembers the
previous original character. -/

/-- One left-to-right pass of the regex substitution `(?<![\\])\\(?=;)` → `\\\\`.
`prev` is the original character immediately before the current position
(`none` at the start of the string). -/
def fixGo : Option Char → List Char → List Char
  | _, [] => []
  | prev, c :: rest =>
    if c = '\\' ∧ prev ≠ some '\\' ∧ rest.head? = some ';' then
      '\\' :: '\\' :: fixGo (some '\\') rest
    else
      c :: fixGo (some c) rest

/-- Embedding of `fix_json_escaping` from src/main.py. -/
def fixJsonEscaping (s : String) : String := (fixGo none s.toList).asString

/-- Scanner deciding whether the regex `(?<![\\])\\(?=;)` matches anywhere:
true iff the list contains a backslash that is not preceded by a backslash
and is followed by a semicolon. -/
def hasUnescapedBackslashSemi : Option Char → List Char → Bool
  | _, [] => false
  | prev, c :: rest =>
    if c = '\\' ∧ prev ≠ some '\\' ∧ rest.head? = some ';' then true
    else hasUnescapedBackslashSemi (some c) rest

theorem fixGo_head? (prev : Option Char) (l : List Char) :
    (fixGo prev l).head? = l.head? := by
  cases l with
  | nil => rfl
  | cons c rest =>
    rw [fixGo]
    split
    · rename_i h
      rw [h.1]
      rfl
    · rfl

theorem fixGo_idem (l : List Char) : ∀ prev, fixGo prev (fixGo prev l) = fixGo prev l := by
  induction l with
  | nil => intro prev; rfl
  | cons c rest ih =>
    intro prev
    by_cases h : (c = '\\' ∧ prev ≠ some '\\' ∧ rest.head? = some ';')
    · rw [fixGo, if_pos h]
      have h1 : ¬ ('\\' = '\\' ∧ prev ≠ some '\\' ∧
          ('\\' :: fixGo (some '\\') rest).head? = some ';') := by
        intro hc
        exact absurd hc.2.2 (by simp)
      rw [fixGo, if_neg h1]
      have h2 : ¬ ('\\' = '\\' ∧ some '\\' ≠ some '\\' ∧
          (fixGo (some '\\') rest).head? = some ';') := by
        intro hc
        exact absurd rfl hc.2.1
      rw [fixGo, if_neg h2, ih (some '\\')]
    · rw [fixGo, if_neg h]
      have h1 : ¬ (c = '\\' ∧ prev ≠ some '\\' ∧
          (fixGo (some c) rest).head? = some ';') := by
        rw [fixGo_head?]
        exact h
      rw [fixGo, if_neg h1, ih (some c)]

theorem fixGo_of_no_match (l : List Char) :
    ∀ prev, hasUnescapedBackslashSemi prev l = false → fixGo prev l = l := by
  induction l with
  | nil => intro prev _; rfl
  | cons c rest ih =>
    intro prev h
    rw [hasUnescapedBackslashSemi] at h
    split at h
    · exact absurd h (by simp)
    · rename_i hcond
      rw [fixGo, if_neg hcond, ih (some c) h]

/-! ## Data model -/

/-- The outcome returned to the model for one CallRequest: either
`{stdout, stderr}` on execution or `{error: msg}` on rejection/failure
(spec section 3, src/main.py result dictionaries). -/
inductive CallResult where
  | ok (stdout stderr : String)
  | error (msg : String)
deriving DecidableEq

/-- A transcript message (src/helpers.py `Messages`): role plus content.
A tool message carries the correlation identifier of the call it answers
(`add_tool_message(message, id)` stores `tool_call_id: id`).  The Python
code stores `str(message)` as tool content; the stringification of the
result dictionary is kept abstract and the `CallResult` is stored directly. -/
inductive Msg where
  | user (content : String)
  | assistant (content : String)
  | tool (result : CallResult) (toolCallId : Option String)
deriving DecidableEq

/-- A structured call request emitted by the model (the
`ChatCompletionMessageToolCall` object read with `getattr` in src/main.py):
`getattr(tc, id, None)`, `getattr(tc.function, name, None)`,
`getattr(tc.function, arguments, None)`.  `none` models an absent
attribute / Python `None`. -/
structure ToolCall where
  id : Option String
  name : Option String
  arguments : Option String
deriving DecidableEq

/-- A Python exception as observed by the per-call handler:
`type(e).__name__` and `str(e)`. -/
structure PyExc where
  kind : String
  msg : String
deriving DecidableEq

/-- A parsed JSON value as produced by `json.loads` (numbers approximated
by integers; none of the verified properties depend on numerics). -/
inductive Json where
  | null
  | bool (b : Bool)
  | num (n : Int)
  | str (s : String)
  | arr (elems : List Json)
  | obj (fields : List (String × Json))

/-- The mutable state owned by the dispatch loop: the gatekeeper's working
directory (`bash.cwd`) and the conversation transcript
(`Messages.messages`; the single system message is set at construction and
never revisited by the loop, so it is left outside the state). -/
structure AgentState where
  wd : String
  msgs : List Msg
deriving DecidableEq

/-! ## Command Gatekeeper (allowlist from src/config.py lines 44-46) -/

/-- The allowlist `Config.allowed_commands` from src/config.py. -/
def allowedCommands : List String :=
  ["cd", "cp", "ls", "cat", "find", "touch", "echo", "grep", "pwd", "mkdir",
   "wget", "sort", "head", "tail", "du", "wc"]

/-- Modelled from the spec: the file bash.py (class `Bash`, the command
gatekeeper) is not under src/.  Spec section 4.1 Execute: "extract the
leading whitespace-delimited token of `cmd` (ignoring any leading path
qualification)".  The leading token is the first maximal run of
non-whitespace characters, with everything up to the last `/` removed. -/
def leadingToken (cmd : String) : String :=
  let firstWord := ((cmd.toList.dropWhile Char.isWhitespace).takeWhile
    (fun c => ¬ c.isWhitespace))
  ((firstWord.reverse.takeWhile (fun c => c ≠ '/')).reverse).asString

/-- Modelled from the spec: bash.py is not under src/.  Spec section 4.1
Execute: check membership of the leading token in the Allowlist; if
absent, return the error result with message command not allowed and
perform no execution;
otherwise run the command in the current WorkingDirectory and advance
WorkingDirectory to the post-execution directory.  The actual shell
execution is the oracle `runner`, returning (stdout, stderr, new working
directory); it is consulted only after the allowlist check passes. -/
def Execute (runner : String → String → String × String × String)
    (wd cmd : String) : String × CallResult :=
  if leadingToken cmd ∈ allowedCommands then
    let (out, err, newWd) := runner wd cmd
    (newWd, CallResult.ok out err)
  else
    (wd, CallResult.error "command not allowed")

/-! ## Tool-call dispatch (src/main.py lines 109-184)

External collaborators are oracles: `ParseOracle` is `json.loads` (the
error carries `str(e)` of the raised `JSONDecodeError`), `GateOracle` is
`bash.exec_bash_command` as called by the loop (it may raise, modelled by
`Except.error`, or return a `CallResult` together with the gatekeeper's
new working directory). -/

abbrev ParseOracle := String → Except String Json

abbrev GateOracle := String → Json → Except PyExc (CallResult × String)

/-- The error message built in src/main.py lines 141-146 when the repaired
payload still fails to parse. -/
def parseFailMsg (e1 e2 s : String) : String :=
  "Failed to parse tool arguments as JSON: " ++ e1 ++
  ". Attempted fix also failed: " ++ e2 ++
  ". This usually happens when the command contains special characters. Arguments (first 200 chars): "
  ++ pySlice 200 s

/-- Argument parsing with the single repair retry (src/main.py lines
130-150): parse, on failure repair with `fix_json_escaping` and parse the
repaired payload once, on a second failure report both reasons and the
bounded excerpt. -/
def resolveArgs (parse : ParseOracle) (s : String) : Except String Json :=
  match parse s with
  | .ok v => .ok v
  | .error e1 =>
    match parse (fixJsonEscaping s) with
    | .ok v => .ok v
    | .error e2 => .error (parseFailMsg e1 e2 s)

/-- Python substring / membership scan: `pat` occurs contiguously in the
second list. -/
def containsSub (pat : List Char) : List Char → Bool
  | [] => pat.isEmpty
  | c :: rest => pat.isPrefixOf (c :: rest) || containsSub pat rest

/-- Python `"cmd" in function_args` (src/main.py line 156): key membership
for a dict, element membership for a list, substring for a string, and a
`TypeError` for non-iterable values. -/
def cmdMem : Json → Except PyExc Bool
  | .obj fields => .ok (fields.any (fun kv => kv.1 == "cmd"))
  | .arr elems => .ok (elems.any (fun j => match j with
      | .str s => s == "cmd"
      | _ => false))
  | .str s => .ok (containsSub "cmd".toList s.toList)
  | .num _ => .error ⟨"TypeError", "argument of type int is not iterable"⟩
  | .bool _ => .error ⟨"TypeError", "argument of type bool is not iterable"⟩
  | .null => .error ⟨"TypeError", "argument of type NoneType is not iterable"⟩

/-- First-match field lookup in a JSON object. -/
def lookupField : List (String × Json) → String → Option Json
  | [], _ => none
  | (k, v) :: rest, key => if k == key then some v else lookupField rest key

/-- Python `function_args["cmd"]` (src/main.py line 160): dict indexing, a
`TypeError` for any non-dict value. -/
def getCmd : Json → Except PyExc Json
  | .obj fields =>
    match lookupField fields "cmd" with
    | some v => .ok v
    | none => .error ⟨"KeyError", "cmd"⟩
  | .str _ => .error ⟨"TypeError", "string indices must be integers"⟩
  | .arr _ => .error ⟨"TypeError", "list indices must be integers"⟩
  | .num _ => .error ⟨"TypeError", "int object is not subscriptable"⟩
  | .bool _ => .error ⟨"TypeError", "bool object is not subscriptable"⟩
  | .null => .error ⟨"TypeError", "NoneType object is not subscriptable"⟩

/-- The body of the `try` block handling one tool call (src/main.py lines
111-175), producing the `CallResult` to append together with the working
directory after the call; a propagated `.error` is an uncaught Python
exception reaching the per-call `except` handler. -/
def callTry (gate : GateOracle) (parse : ParseOracle) (wd : String)
    (tc : ToolCall) : Except PyExc (CallResult × String) :=
  match tc.name with
  | none => .ok (CallResult.error "Tool call missing function name", wd)
  | some nm =>
    if nm = "" then .ok (CallResult.error "Tool call missing function name", wd)
    else
      match tc.arguments with
      | none => .ok (CallResult.error "Tool call missing arguments", wd)
      | some args =>
        match resolveArgs parse args with
        | .error m => .ok (CallResult.error m, wd)
        | .ok v =>
          match v with
          | .null => .ok (CallResult.error "Failed to parse function arguments", wd)
          | _ =>
            if nm ≠ "exec_bash_command" then
              .ok (CallResult.error "Incorrect tool or function argument", wd)
            else
              match cmdMem v with
              | .error e => .error e
              | .ok b =>
                if b then
                  match getCmd v with
                  | .error e => .error e
                  | .ok cmd => gate wd cmd
                else .ok (CallResult.error "Incorrect tool or function argument", wd)

/-- The message built by the per-call `except` handler (src/main.py line
178): `Unexpected error processing tool call: {type(e).__name__}: {str(e)}`. -/
def unexpectedMsg (e : PyExc) : String :=
  "Unexpected error processing tool call: " ++ e.kind ++ ": " ++ e.msg

/-- Processing of one CallRequest including the catch-all boundary
(src/main.py lines 110-184): every branch appends exactly one tool message
carrying the value of `getattr(tc, id, None)`. -/
def processCall (gate : GateOracle) (parse : ParseOracle) (st : AgentState)
    (tc : ToolCall) : AgentState :=
  match callTry gate parse st.wd tc with
  | .ok (res, wd') => ⟨wd', st.msgs ++ [Msg.tool res tc.id]⟩
  | .error e =>
    ⟨st.wd, st.msgs ++ [Msg.tool (CallResult.error (unexpectedMsg e)) tc.id]⟩

/-- `for tc in tool_calls:` — the batch is processed strictly sequentially. -/
def processBatch (gate : GateOracle) (parse : ParseOracle) (st : AgentState)
    (tcs : List ToolCall) : AgentState :=
  tcs.foldl (processCall gate parse) st

/-! ## Response text handling (src/main.py lines 98-106) -/

/-- The reasoning delimiter `</think>`. -/
def thinkDelim : List Char := "</think>".toList

/-- Python `response.split("</think>")`: leftmost, non-overlapping splitting.
The fuel argument only totalizes the recursion; `fuel = s.length` always
suffices because every step consumes at least one character. -/
def splitThinkFuel : Nat → List Char → List Char → List (List Char)
  | 0, s, acc => [acc.reverse ++ s]
  | _ + 1, [], acc => [acc.reverse]
  | fuel + 1, c :: rest, acc =>
    if thinkDelim.isPrefixOf (c :: rest) then
      acc.reverse :: splitThinkFuel fuel ((c :: rest).drop thinkDelim.length) []
    else
      splitThinkFuel fuel rest (c :: acc)

/-- `response.split("</think>")` on a character list. -/
def splitThink (s : List Char) : List (List Char) := splitThinkFuel s.length s []

/-- src/main.py lines 99-102: strip the response, and if it contains the
reasoning delimiter keep only `split("</think>")[-1].strip()`. -/
def stripThinking (r : String) : String :=
  let t := pyStrip r
  if containsSub thinkDelim t.toList then
    pyStrip ((splitThink t.toList).getLastD []).asString
  else t

/-- src/main.py lines 98-106: a truthy response is stripped of the hidden
reasoning segment and, when the retained text is non-empty, appended to the
transcript as an assistant message.  Returns the new transcript and the
value of the `response` variable after the block. -/
def handleResponse (resp : Option String) (msgs : List Msg) :
    List Msg × Option String :=
  match resp with
  | none => (msgs, none)
  | some r =>
    if r = "" then (msgs, some r)
    else
      let r' := stripThinking r
      (if r' = "" then msgs else msgs ++ [Msg.assistant r'], some r')

/-! ## The agent loops (src/main.py lines 65-190) -/

/-- One model exchange: optional assistant text and zero or more call
requests, as returned by `llm.query` (src/helpers.py lines 49-68). -/
abbrev LLMResp := Option String × List ToolCall

/-- The inner tool-call/response loop (src/main.py lines 94-190).  The
model client is an oracle consuming one element of `resps` per query; an
exhausted oracle answers with no text and no calls.  Returns the state
when the loop breaks and the unconsumed responses. -/
def innerLoop (gate : GateOracle) (parse : ParseOracle) :
    List LLMResp → AgentState → AgentState × List LLMResp
  | [], st => (st, [])
  | (r, tcs) :: rest, st =>
    let st1 : AgentState := ⟨st.wd, (handleResponse r st.msgs).1⟩
    match tcs with
    | [] => (st1, rest)
    | tc0 :: tcs' => innerLoop gate parse rest (processBatch gate parse st1 (tc0 :: tcs'))

/-- The observable outcome of `input_with_timeout` (src/main.py lines
11-49): the stripped line on input, the empty string on the select timeout
or on EOF/interrupt. -/
inductive InputEvent where
  | timeout
  | eof
  | line (s : String)
deriving DecidableEq

/-- The value returned by `input_with_timeout`. -/
def inputWithTimeout : InputEvent → String
  | .timeout => ""
  | .eof => ""
  | .line s => pyStrip s

/-- The timeout passed to `input_with_timeout` in src/main.py line 77. -/
def mainIdleTimeoutSeconds : Nat := 30

/-- How the main loop leaves its `while True` (src/main.py lines 80-85). -/
inductive TermReason where
  | inactivity
  | userQuit
deriving DecidableEq

/-- The shutdown message printed for each termination reason (src/main.py
lines 81 and 85). -/
def termMessage : TermReason → String
  | .inactivity => "\n[🤖] Shutting down due to inactivity timeout (30 seconds).\n"
  | .userQuit => "\n[🤖] Shutting down. Bye!\n"

/-- The branch taken on a freshly read user input (src/main.py lines
79-88): empty input breaks with the inactivity message, `quit` in any
letter case breaks with the goodbye message, the second emptiness guard
would `continue`, anything else proceeds into the turn. -/
inductive InputDecision where
  | terminateInactivity
  | terminateQuit
  | skipReprompt
  | proceed
deriving DecidableEq

/-- src/main.py lines 79-88, in source order. -/
def inputDecision (user : String) : InputDecision :=
  if user = "" then .terminateInactivity
  else if pyLower user = "quit" then .terminateQuit
  else if user = "" then .skipReprompt
  else .proceed

/-- The outer agent loop (src/main.py lines 75-190).  User input is an
oracle consuming one `InputEvent` per prompt; an exhausted oracle means no
input ever arrives, i.e. a timeout.  Returns the termination reason, the
final state, the unconsumed input events (no further prompts are issued
for them) and the unconsumed model responses (no further queries are
made). -/
def outerLoop (gate : GateOracle) (parse : ParseOracle) :
    List InputEvent → List LLMResp → AgentState →
    TermReason × AgentState × List InputEvent × List LLMResp
  | [], resps, st => (.inactivity, st, [], resps)
  | ev :: restIn, resps, st =>
    let user := pyStrip (inputWithTimeout ev)
    match inputDecision user with
    | .terminateInactivity => (.inactivity, st, restIn, resps)
    | .terminateQuit => (.userQuit, st, restIn, resps)
    | .skipReprompt => outerLoop gate parse restIn resps st
    | .proceed =>
      let user' := user ++ "\n Current working directory: `" ++ st.wd ++ "`"
      let st1 : AgentState := ⟨st.wd, st.msgs ++ [Msg.user user']⟩
      let q := innerLoop gate parse resps st1
      outerLoop gate parse restIn q.2 q.1

/-! ## Claim theorems (first group) -/

/-- C1: for every command string whose leading whitespace-delimited token
(ignoring any leading path qualification) is not a member of the allowlist,
Execute returns an `{error}` CallResult, performs no execution (the result
does not consult the `runner` oracle), and leaves the working directory
unchanged. -/
theorem execute_rejects_disallowed_command
    (runner : String → String → String × String × String) (wd cmd : String)
    (h : leadingToken cmd ∉ allowedCommands) :
    Execute runner wd cmd = (wd, CallResult.error "command not allowed") := by
  unfold Execute
  rw [if_neg h]

/-- Witness for C1 at the concrete command `rm -rf /tmp`. -/
theorem execute_rejects_disallowed_command_witness :
    Execute (fun wd _ => ("out", "err", wd ++ "/sub")) "/home" "rm -rf /tmp"
      = ("/home", CallResult.error "command not allowed") :=
  execute_rejects_disallowed_command _ _ _ (by decide)

/-- Fixture oracles for concrete witnesses. -/
def sampleGate : GateOracle := fun wd _ => .ok (CallResult.ok "out" "", wd)

/-- Fixture parse oracle that always succeeds with an object holding `cmd`. -/
def okParse : ParseOracle := fun _ => .ok (Json.obj [("cmd", Json.str "ls")])

/-- Fixture parse oracle that always fails. -/
def failParse : ParseOracle := fun _ => .error "bad json"

/-- C6: when the loop awaits user input and no input arrives before the
timeout (the `input_with_timeout` deadline, 30 seconds counted from the
point the prompt is issued after the previous agent output), the loop
terminates with the inactivity reason and message, issues no further
prompts (the remaining input events are returned unconsumed) and makes no
further model queries (the remaining responses are returned unconsumed). -/
theorem idle_timeout_terminates_loop (gate : GateOracle) (parse : ParseOracle)
    (restIn : List InputEvent) (resps : List LLMResp) (st : AgentState) :
    outerLoop gate parse (InputEvent.timeout :: restIn) resps st
      = (TermReason.inactivity, st, restIn, resps)
    ∧ mainIdleTimeoutSeconds = 30
    ∧ termMessage TermReason.inactivity
      = "\n[🤖] Shutting down due to inactivity timeout (30 seconds).\n" :=
  ⟨rfl, rfl, rfl⟩

/-- C7: a user input line equal to `quit` under case-insensitive comparison
terminates the loop immediately: the transcript is unchanged (no message
appended), no model query is consumed, and no further input is read. -/
theorem quit_terminates_loop (gate : GateOracle) (parse : ParseOracle)
    (ev : InputEvent) (restIn : List InputEvent) (resps : List LLMResp)
    (st : AgentState)
    (h : pyLower (pyStrip (inputWithTimeout ev)) = "quit") :
    outerLoop gate parse (ev :: restIn) resps st
      = (TermReason.userQuit, st, restIn, resps) := by
  have hne : pyStrip (inputWithTimeout ev) ≠ "" := by
    intro h0
    rw [h0] at h
    exact absurd h (by decide)
  have hd : inputDecision (pyStrip (inputWithTimeout ev))
      = InputDecision.terminateQuit := by
    unfold inputDecision
    rw [if_neg hne, if_pos h]
  rw [outerLoop, hd]

/-- Witness for C7 at the concrete input line `QUIT`. -/
theorem quit_terminates_loop_witness :
    outerLoop sampleGate okParse [InputEvent.line "QUIT"] [] ⟨"/w", []⟩
      = (TermReason.userQuit, ⟨"/w", []⟩, [], []) :=
  quit_terminates_loop sampleGate okParse (InputEvent.line "QUIT") [] [] ⟨"/w", []⟩
    (by decide)

/-- C10: an empty string returned by the input read (empty line, EOF, or
timeout) terminates the loop with the inactivity reason rather than
re-prompting, and the later guard that would skip empty input and
re-prompt (src/main.py lines 87-88) is unreachable: no input string maps
to the skip decision. -/
theorem empty_input_terminates_loop :
    (∀ (gate : GateOracle) (parse : ParseOracle) (ev : InputEvent)
        (restIn : List InputEvent) (resps : List LLMResp) (st : AgentState),
      pyStrip (inputWithTimeout ev) = "" →
      outerLoop gate parse (ev :: restIn) resps st
        = (TermReason.inactivity, st, restIn, resps))
    ∧ (∀ user : String, inputDecision user ≠ InputDecision.skipReprompt) := by
  constructor
  · intro gate parse ev restIn resps st h
    have hd : inputDecision (pyStrip (inputWithTimeout ev))
        = InputDecision.terminateInactivity := by
      unfold inputDecision
      rw [if_pos h]
    rw [outerLoop, hd]
  · intro user
    unfold inputDecision
    split
    · simp
    · split
      · simp
      · simp

/-- Witness for C10 at end-of-file on stdin. -/
theorem empty_input_terminates_loop_witness :
    outerLoop sampleGate okParse [InputEvent.eof, InputEvent.line "hello"] []
        ⟨"/w", []⟩
      = (TermReason.inactivity, ⟨"/w", []⟩, [InputEvent.line "hello"], []) :=
  empty_input_terminates_loop.1 sampleGate okParse InputEvent.eof
    [InputEvent.line "hello"] [] ⟨"/w", []⟩ (by decide)

/-- C9: `fix_json_escaping` is idempotent; it leaves any string without an
unescaped backslash immediately before a semicolon unchanged (in particular
a backslash already preceded by another backslash is untouched); and it
doubles a single backslash immediately followed by a semicolon. -/
theorem fix_json_escaping_idempotent_and_targeted :
    (∀ s : String, fixJsonEscaping (fixJsonEscaping s) = fixJsonEscaping s)
    ∧ (∀ s : String,
        hasUnescapedBackslashSemi none s.toList = false → fixJsonEscaping s = s)
    ∧ fixJsonEscaping "\\;" = "\\\\;" := by
  refine ⟨fun s => ?_, fun s h => ?_, by decide⟩
  · show ((fixGo none (fixGo none s.toList)).asString) = _
    rw [fixGo_idem]
    rfl
  · show ((fixGo none s.toList).asString) = s
    rw [fixGo_of_no_match _ none h]
    cases s
    rfl

/-- Role/identifier tag of a transcript message: `some id` exactly for a
tool-role message carrying correlation identifier `id`. -/
def toolTag : Msg → Option (Option String)
  | .tool _ toolCallId => some toolCallId
  | _ => none

theorem processCall_msgs (gate : GateOracle) (parse : ParseOracle)
    (st : AgentState) (tc : ToolCall) :
    ∃ res, (processCall gate parse st tc).msgs
      = st.msgs ++ [Msg.tool res tc.id] := by
  unfold processCall
  cases h : callTry gate parse st.wd tc with
  | ok pr =>
    obtain ⟨res, wd'⟩ := pr
    exact ⟨res, rfl⟩
  | error e =>
    exact ⟨CallResult.error (unexpectedMsg e), rfl⟩

theorem processBatch_msgs (gate : GateOracle) (parse : ParseOracle) :
    ∀ (tcs : List ToolCall) (st : AgentState), ∃ ms : List Msg,
      (processBatch gate parse st tcs).msgs = st.msgs ++ ms
      ∧ ms.map toolTag = tcs.map (fun tc => some tc.id) := by
  intro tcs
  induction tcs with
  | nil =>
    intro st
    exact ⟨[], by simp [processBatch], rfl⟩
  | cons tc rest ih =>
    intro st
    obtain ⟨res, hres⟩ := processCall_msgs gate parse st tc
    obtain ⟨ms, hm, ht⟩ := ih (processCall gate parse st tc)
    refine ⟨Msg.tool res tc.id :: ms, ?_, ?_⟩
    · have hstep : processBatch gate parse st (tc :: rest)
          = processBatch gate parse (processCall gate parse st tc) rest := rfl
      rw [hstep, hm, hres]
      simp
    · simp [toolTag, ht]

/-- C3: for every batch, the dispatch loop appends exactly one tool-role
message per CallRequest, preserves the existing transcript prefix, tags
the appended messages with the requests' correlation identifiers (`none`
when absent) in the strict order the requests were received, regardless of
which requests succeed or fail; and the next model query (the recursive
`innerLoop` step) starts only from the state in which the whole batch has
been appended. -/
theorem batch_appends_one_tool_message_per_call (gate : GateOracle)
    (parse : ParseOracle) (st : AgentState) (tcs : List ToolCall) :
    (processBatch gate parse st tcs).msgs.length = st.msgs.length + tcs.length
    ∧ (processBatch gate parse st tcs).msgs.take st.msgs.length = st.msgs
    ∧ ((processBatch gate parse st tcs).msgs.drop st.msgs.length).map toolTag
        = tcs.map (fun tc => some tc.id)
    ∧ (∀ (r : Option String) (tc0 : ToolCall) (tcs' : List ToolCall)
        (rest : List LLMResp),
        innerLoop gate parse ((r, tc0 :: tcs') :: rest) st
          = innerLoop gate parse rest
              (processBatch gate parse ⟨st.wd, (handleResponse r st.msgs).1⟩
                (tc0 :: tcs'))) := by
  obtain ⟨ms, hm, ht⟩ := processBatch_msgs gate parse tcs st
  have hlen : ms.length = tcs.length := by
    have h0 := congrArg List.length ht
    simpa using h0
  refine ⟨?_, ?_, ?_, fun r tc0 tcs' rest => rfl⟩
  · rw [hm]
    simp [hlen]
  · rw [hm]
    exact List.take_left ..
  · rw [hm, List.drop_left]
    exact ht

/-- C2: an unexpected exception raised while handling a single CallRequest
(at any position of any batch) is caught at the per-call boundary,
converted to an `{error}` CallResult carrying the exception kind and
message, appended to the transcript as a tool message with the call's
identifier, and the remaining CallRequests of the batch are processed from
that state — the dispatch of the batch never aborts. -/
theorem unexpected_exception_isolated (gate : GateOracle) (parse : ParseOracle)
    (st : AgentState) (pre post : List ToolCall) (tc : ToolCall) (e : PyExc)
    (h : callTry gate parse (processBatch gate parse st pre).wd tc
      = .error e) :
    processBatch gate parse st (pre ++ tc :: post)
      = processBatch gate parse
          ⟨(processBatch gate parse st pre).wd,
           (processBatch gate parse st pre).msgs
             ++ [Msg.tool (CallResult.error (unexpectedMsg e)) tc.id]⟩
          post := by
  show List.foldl (processCall gate parse) st (pre ++ tc :: post) = _
  rw [List.foldl_append, List.foldl_cons]
  have hmid : processCall gate parse (processBatch gate parse st pre) tc
      = ⟨(processBatch gate parse st pre).wd,
         (processBatch gate parse st pre).msgs
           ++ [Msg.tool (CallResult.error (unexpectedMsg e)) tc.id]⟩ := by
    unfold processCall
    rw [h]
  rw [show List.foldl (processCall gate parse) st pre
      = processBatch gate parse st pre from rfl, hmid]
  rfl

/-- Fixture gate oracle that raises. -/
def throwGate : GateOracle := fun _ _ => .error ⟨"RuntimeError", "boom"⟩

/-- Fixture tool call naming the supported function with parsable args. -/
def wTc : ToolCall := ⟨some "call_1", some "exec_bash_command", some "x"⟩

/-- Witness for C2: a raising gatekeeper in a two-call batch is converted
and the second call is still processed. -/
theorem unexpected_exception_isolated_witness :
    callTry throwGate okParse
        (processBatch throwGate okParse ⟨"/work", []⟩ []).wd wTc
      = .error ⟨"RuntimeError", "boom"⟩
    ∧ processBatch throwGate okParse ⟨"/work", []⟩ ([] ++ wTc :: [wTc])
      = processBatch throwGate okParse
          ⟨(processBatch throwGate okParse ⟨"/work", []⟩ []).wd,
           (processBatch throwGate okParse ⟨"/work", []⟩ []).msgs
             ++ [Msg.tool
                  (CallResult.error (unexpectedMsg ⟨"RuntimeError", "boom"⟩))
                  wTc.id]⟩
          [wTc] :=
  ⟨rfl,
   unexpected_exception_isolated throwGate okParse ⟨"/work", []⟩ [] [wTc] wTc
     ⟨"RuntimeError", "boom"⟩ rfl⟩

theorem lookupField_none_any (key : String) :
    ∀ fields : List (String × Json), lookupField fields key = none →
      fields.any (fun kv => kv.1 == key) = false := by
  intro fields
  induction fields with
  | nil => intro _; rfl
  | cons kv rest ih =>
    obtain ⟨k, v⟩ := kv
    intro h
    rw [lookupField] at h
    split at h
    · exact absurd h (by simp)
    · rename_i hk
      simp only [List.any_cons, Bool.or_eq_false_iff]
      exact ⟨by simpa using hk, ih h⟩

/-- C5: a CallRequest whose function name differs from the single supported
function `exec_bash_command`, or whose successfully parsed arguments are an
object lacking a `cmd` field, yields the error CallResult with message
Incorrect tool or function argument, without consulting the
gatekeeper oracle (the result is a fixed value independent of `gate`), and
the batch continues processing the remaining CallRequests from the state
extended with exactly that tool message. -/
theorem wrong_tool_or_missing_cmd_rejected (gate : GateOracle)
    (parse : ParseOracle) (wd : String) (oid : Option String) (nm args : String)
    (v : Json)
    (hnm : nm ≠ "")
    (hv : resolveArgs parse args = .ok v)
    (hnn : v ≠ Json.null)
    (hmain : nm ≠ "exec_bash_command"
      ∨ ∃ fields, v = Json.obj fields ∧ lookupField fields "cmd" = none) :
    callTry gate parse wd ⟨oid, some nm, some args⟩
      = .ok (CallResult.error "Incorrect tool or function argument", wd)
    ∧ ∀ (st : AgentState) (rest : List ToolCall), st.wd = wd →
        processBatch gate parse st (⟨oid, some nm, some args⟩ :: rest)
          = processBatch gate parse
              ⟨wd, st.msgs ++ [Msg.tool
                 (CallResult.error "Incorrect tool or function argument") oid]⟩
              rest := by
  have h1 : callTry gate parse wd ⟨oid, some nm, some args⟩
      = .ok (CallResult.error "Incorrect tool or function argument", wd) := by
    rcases hmain with hl | ⟨fields, rfl, hlk⟩
    · cases v with
      | null => exact absurd rfl hnn
      | bool b => simp [callTry, hv, hnm, hl]
      | num n => simp [callTry, hv, hnm, hl]
      | str t => simp [callTry, hv, hnm, hl]
      | arr elems => simp [callTry, hv, hnm, hl]
      | obj fields => simp [callTry, hv, hnm, hl]
    · by_cases he : nm = "exec_bash_command"
      · subst he
        have hany := lookupField_none_any "cmd" fields hlk
        simp [callTry, hv, hnm, cmdMem, hany]
      · simp [callTry, hv, hnm, he]
  refine ⟨h1, ?_⟩
  intro st rest hst
  show List.foldl (processCall gate parse) st (_ :: rest) = _
  rw [List.foldl_cons]
  have hc : processCall gate parse st ⟨oid, some nm, some args⟩
      = ⟨wd, st.msgs ++ [Msg.tool
          (CallResult.error "Incorrect tool or function argument") oid]⟩ := by
    unfold processCall
    rw [hst, h1]
  rw [hc]
  rfl

/-- Witness for C5 at a concrete unsupported function name. -/
theorem wrong_tool_or_missing_cmd_rejected_witness :
    callTry sampleGate okParse "/w" ⟨some "id9", some "other_tool", some "x"⟩
      = .ok (CallResult.error "Incorrect tool or function argument", "/w") :=
  (wrong_tool_or_missing_cmd_rejected sampleGate okParse "/w" (some "id9")
    "other_tool" "x" (Json.obj [("cmd", Json.str "ls")])
    (by decide) rfl (fun h => Json.noConfusion h) (Or.inl (by decide))).1

/-- C4: on a payload whose parse fails, the loop performs exactly one
repair pass (`fix_json_escaping`, which doubles each unescaped backslash
immediately preceding a semicolon) and retries parsing exactly once: the
outcome is fully determined by the original parse and the single parse of
the repaired payload.  If the retry also fails, the `{error}` result is
exactly the message carrying the original failure reason, the
repair-attempt failure reason and the first 200 characters of the raw
payload (`parseFailMsg`); if the retry succeeds, the per-call dispatch
proceeds exactly as it would with a parser that yields that value for a
well-formed payload. -/
theorem json_repair_single_retry (parse : ParseOracle) (s e1 : String)
    (h1 : parse s = .error e1) :
    (∀ e2, parse (fixJsonEscaping s) = .error e2 →
      resolveArgs parse s = .error (parseFailMsg e1 e2 s))
    ∧ (∀ v, parse (fixJsonEscaping s) = .ok v → resolveArgs parse s = .ok v)
    ∧ (∀ v, parse (fixJsonEscaping s) = .ok v →
        ∀ (gate : GateOracle) (wd : String) (oid : Option String) (nm : String),
          callTry gate parse wd ⟨oid, some nm, some s⟩
            = callTry gate (fun _ => Except.ok v) wd ⟨oid, some nm, some s⟩) := by
  refine ⟨fun e2 h2 => ?_, fun v h2 => ?_, fun v h2 gate wd oid nm => ?_⟩
  · unfold resolveArgs
    rw [h1, h2]
  · unfold resolveArgs
    rw [h1, h2]
  · have hr : resolveArgs parse s = .ok v := by
      unfold resolveArgs
      rw [h1, h2]
    have hr' : resolveArgs (fun _ => Except.ok v) s = Except.ok v := rfl
    by_cases hnm : nm = ""
    · simp [callTry, hnm]
    · simp [callTry, hnm, hr, hr']

/-- Witness for C4: a parser failing on both attempts produces exactly the
diagnostic message. -/
theorem json_repair_single_retry_witness :
    resolveArgs failParse "cmdtext"
      = .error (parseFailMsg "bad json" "bad json" "cmdtext") :=
  (json_repair_single_retry failParse "cmdtext" "bad json" rfl).1 "bad json" rfl

theorem splitThinkFuel_ne_nil : ∀ (fuel : Nat) (s acc : List Char),
    splitThinkFuel fuel s acc ≠ [] := by
  intro fuel
  induction fuel with
  | zero => intro s acc; simp [splitThinkFuel]
  | succ n ih =>
    intro s acc
    cases s with
    | nil => simp [splitThinkFuel]
    | cons c rest =>
      rw [splitThinkFuel]
      split
      · simp
      · exact ih rest (c :: acc)

theorem isPrefixOf_eq_append (p : List Char) :
    ∀ s, p.isPrefixOf s = true → s = p ++ s.drop p.length := by
  induction p with
  | nil => intro s _; rfl
  | cons a p' ih =>
    intro s h
    cases s with
    | nil => exact absurd h (by simp [List.isPrefixOf])
    | cons b t =>
      simp only [List.isPrefixOf, Bool.and_eq_true, beq_iff_eq] at h
      obtain ⟨rfl, h2⟩ := h
      simp only [List.cons_append, List.length_cons, List.drop_succ_cons]
      rw [← ih t h2]

theorem splitThinkFuel_no_delim : ∀ (fuel : Nat) (s acc : List Char),
    s.length ≤ fuel → containsSub thinkDelim s = false →
    splitThinkFuel fuel s acc = [acc.reverse ++ s] := by
  intro fuel
  induction fuel with
  | zero => intro s acc _ _; rfl
  | succ n ih =>
    intro s acc hle hnd
    cases s with
    | nil => simp [splitThinkFuel]
    | cons c rest =>
      rw [containsSub] at hnd
      simp only [Bool.or_eq_false_iff] at hnd
      obtain ⟨h1, h2⟩ := hnd
      rw [splitThinkFuel, h1]
      rw [ih rest (c :: acc) (Nat.le_of_succ_le_succ hle) h2]
      simp

theorem getLastD_irrel {α : Type} (l : List α) (h : l ≠ []) (d d' : α) :
    l.getLastD d = l.getLastD d' := by
  cases l with
  | nil => exact absurd rfl h
  | cons a t => rw [List.getLastD_cons, List.getLastD_cons]

theorem splitThinkFuel_last_decomp : ∀ (fuel : Nat) (s acc : List Char),
    s.length ≤ fuel → containsSub thinkDelim s = true →
    ∃ a, s = a ++ thinkDelim ++ ((splitThinkFuel fuel s acc).getLastD [])
      ∧ containsSub thinkDelim ((splitThinkFuel fuel s acc).getLastD [])
        = false := by
  intro fuel
  induction fuel with
  | zero =>
    intro s acc hle hcd
    have hs : s = [] := List.length_eq_zero.mp (Nat.le_zero.mp hle)
    subst hs
    exact absurd hcd (by decide)
  | succ n ih =>
    intro s acc hle hcd
    cases s with
    | nil => exact absurd hcd (by decide)
    | cons c rest =>
      cases hp : thinkDelim.isPrefixOf (c :: rest) with
      | true =>
        have hdecomp := isPrefixOf_eq_append thinkDelim (c :: rest) hp
        have htlen : ((c :: rest).drop thinkDelim.length).length ≤ n := by
          have h0 : (c :: rest).length ≤ n + 1 := hle
          have h8 : thinkDelim.length = 8 := rfl
          simp only [List.length_drop, List.length_cons, h8] at h0 ⊢
          omega
        have hnn := splitThinkFuel_ne_nil n ((c :: rest).drop thinkDelim.length) []
        rw [splitThinkFuel, if_pos hp, List.getLastD_cons,
          getLastD_irrel _ hnn acc.reverse []]
        by_cases hcd2 :
            containsSub thinkDelim ((c :: rest).drop thinkDelim.length) = true
        · obtain ⟨a', ha', hni⟩ := ih ((c :: rest).drop thinkDelim.length) [] htlen hcd2
          refine ⟨thinkDelim ++ a', ?_, hni⟩
          conv_lhs => rw [hdecomp, ha']
          simp only [List.append_assoc]
        · have hfalse :
              containsSub thinkDelim ((c :: rest).drop thinkDelim.length) = false := by
            cases hval : containsSub thinkDelim ((c :: rest).drop thinkDelim.length)
            · rfl
            · exact absurd hval hcd2
          rw [splitThinkFuel_no_delim n _ [] htlen hfalse]
          refine ⟨[], ?_, ?_⟩
          · simpa using hdecomp
          · simpa using hfalse
      | false =>
        have hcd' : containsSub thinkDelim rest = true := by
          rw [containsSub] at hcd
          simpa [hp] using hcd
        rw [splitThinkFuel, if_neg (by simp [hp])]
        obtain ⟨a', ha', hni⟩ := ih rest (c :: acc) (Nat.le_of_succ_le_succ hle) hcd'
        refine ⟨c :: a', ?_, hni⟩
        rw [List.cons_append, List.cons_append, ← ha']

/-- C8: for every model response whose stripped text contains the
reasoning delimiter `</think>`, the retained text is the trim of the
unique suffix that follows the final delimiter occurrence (the stripped
response decomposes as `a ++ "</think>" ++ b` with no delimiter inside
`b`), only that retained portion is appended to the transcript as an
assistant message when it is non-empty, and nothing is appended when it is
empty — the portion before the delimiter never reaches the transcript. -/
theorem think_delimiter_strips_reasoning (s : String) (msgs : List Msg)
    (h : containsSub thinkDelim (pyStrip s).toList = true) :
    ∃ a b : List Char,
      (pyStrip s).toList = a ++ thinkDelim ++ b
      ∧ containsSub thinkDelim b = false
      ∧ stripThinking s = pyStrip b.asString
      ∧ handleResponse (some s) msgs
        = (if pyStrip b.asString = "" then msgs
           else msgs ++ [Msg.assistant (pyStrip b.asString)],
           some (pyStrip b.asString)) := by
  obtain ⟨a, ha, hni⟩ := splitThinkFuel_last_decomp (pyStrip s).toList.length
    (pyStrip s).toList [] le_rfl h
  have hstrip : stripThinking s
      = pyStrip ((splitThink (pyStrip s).toList).getLastD []).asString := by
    unfold stripThinking
    rw [if_pos h]
  have hsne : s ≠ "" := by
    intro h0
    subst h0
    exact absurd h (by decide)
  refine ⟨a, (splitThink (pyStrip s).toList).getLastD [], ha, hni, hstrip, ?_⟩
  simp only [handleResponse]
  rw [if_neg hsne, hstrip]

/-- Witness for C8 at a concrete two-segment response. -/
theorem think_delimiter_strips_reasoning_witness :
    containsSub thinkDelim (pyStrip "plan</think>final answer").toList = true
    ∧ ∃ a b : List Char,
        (pyStrip "plan</think>final answer").toList = a ++ thinkDelim ++ b
        ∧ containsSub thinkDelim b = false
        ∧ stripThinking "plan</think>final answer" = pyStrip b.asString
        ∧ handleResponse (some "plan</think>final answer") []
          = (if pyStrip b.asString = "" then ([] : List Msg)
             else [] ++ [Msg.assistant (pyStrip b.asString)],
             some (pyStrip b.asString)) :=
  ⟨by decide,
   think_delimiter_strips_reasoning "plan</think>final answer" [] (by decide)⟩

/-- Witness for C9: the already-escaped sequence `\\;` is left unchanged
(second conjunct applied at a concrete input), and doubling plus
idempotence at a concrete input. -/
theorem fix_json_escaping_witness :
    fixJsonEscaping "find . \\\\;" = "find . \\\\;"
    ∧ fixJsonEscaping (fixJsonEscaping "find . \\;") = fixJsonEscaping "find . \\;" :=
  ⟨fix_json_escaping_idempotent_and_targeted.2.1 "find . \\\\;" (by decide),
   fix_json_escaping_idempotent_and_targeted.1 "find . \\;"⟩

end Agent
